import Mathlib

/-!
# Verification of the mymalloc allocator (src/mymalloc.c)

Shallow embedding of the allocator in `src/mymalloc.c`: a free-list memory
allocator over `mmap`-obtained pages, with block splitting, coalescing of
free blocks, and a separate large-object path.

Modelling choices:
* Memory is a finite association list from header addresses (`Nat`) to block
  headers (`Node`, mirroring the C `node_t`: `size`, `free_flag`, `next`).
  The C `next` pointer is an `Option Nat` header address (NULL = `none`).
* `sizeof(node_t)` is 24 bytes (LP64: 8-byte `size_t`, padded `bool`,
  8-byte pointer); `sizeof(void*)` is 8; `PAGE_SIZE` is 4096, as in the C.
* `size_t` arithmetic that can wrap is taken modulo `W = 2^64`.
* `mmap` is modelled as a monotonically growing page-aligned bump pointer
  `nextMap` (the spec's monotonic-placement assumption); each `mymalloc`
  call performs at most one `mmap`, whose success is the `mapOk` argument.
  `munmap` removes the header from the memory map.
* The C `while` loops (free-list search, coalescing) are given explicit
  fuel; the top-level wrappers supply fuel that is sufficient for every
  state whose list is an acyclic chain of headers present in memory, which
  holds in all states reachable from `initState`.
* The `printf` double-free diagnostic is modelled as the `Bool` component
  of `myfree`'s result.
-/

namespace MyMalloc

/-- `PAGE_SIZE` from mymalloc.c line 21. -/
def PAGE_SIZE : Nat := 4096

/-- `sizeof(node_t)` on an LP64 platform: 8 (size) + 8 (padded bool) + 8 (next). -/
def headerSize : Nat := 24

/-- `sizeof(void*)`: minimum allocation size and alignment unit. -/
def ptrSize : Nat := 8

/-- Modulus of `size_t` arithmetic (64-bit). -/
def W : Nat := 2 ^ 64

/-- The block header, mirroring `node_t` (mymalloc.c lines 27-31). -/
structure Node where
  size : Nat
  free_flag : Bool
  next : Option Nat
deriving DecidableEq, Repr

/-- Allocator state: the headers currently written in memory (address ↦ node),
the global `head` (mymalloc.c line 35), and the bump pointer modelling where
the next `mmap` places a region. -/
structure AllocState where
  mem : List (Nat × Node)
  head : Option Nat
  nextMap : Nat
deriving DecidableEq, Repr

/-- Read the header stored at address `a`, if any. -/
def lookupMem : List (Nat × Node) → Nat → Option Node
  | [], _ => none
  | (b, n) :: rest, a => if b = a then some n else lookupMem rest a

/-- Write header `n` at address `a` (overwriting any header already there). -/
def storeMem : List (Nat × Node) → Nat → Node → List (Nat × Node)
  | [], a, n => [(a, n)]
  | (b, x) :: rest, a, n =>
      if b = a then (a, n) :: rest else (b, x) :: storeMem rest a n

/-- Remove the header at address `a` (models `munmap` of its region). -/
def eraseMem : List (Nat × Node) → Nat → List (Nat × Node)
  | [], _ => []
  | (b, x) :: rest, a =>
      if b = a then eraseMem rest a else (b, x) :: eraseMem rest a

/-- Lines 57-58 of mymalloc.c: clamp the request to at least `sizeof(void*)`
and align it up to a multiple of 8 (`(size + 7) & ~7`, in `size_t`
arithmetic, hence the `% W`). -/
def roundedSize (size : Nat) : Nat :=
  let s1 := if size < ptrSize then ptrSize else size
  (((s1 + 7) % W) / 8) * 8

/-- Line 61 of mymalloc.c: the large-allocation test `size >= PAGE_SIZE`,
applied to the clamped-and-aligned size. -/
def isLargeRequest (size : Nat) : Bool := decide (PAGE_SIZE ≤ roundedSize size)

/-- Lines 61-81 of mymalloc.c: the large-object path. `s` is the already
rounded size. Maps a dedicated region of whole pages, formats one header
with `next = NULL`, and returns the payload address; the free list is not
touched. -/
def largeAlloc (st : AllocState) (mapOk : Bool) (s : Nat) : Option Nat × AllocState :=
  let total := (s + headerSize) % W
  let pages := ((total + (PAGE_SIZE - 1)) % W) / PAGE_SIZE
  let alloc := (pages * PAGE_SIZE) % W
  if mapOk then
    let a := st.nextMap
    (some (a + headerSize),
      ⟨storeMem st.mem a ⟨alloc - headerSize, false, none⟩, st.head, a + alloc⟩)
  else (none, st)

/-- Lines 84-115 of mymalloc.c: first-fit search over the list starting at
`cur`, with `prevA` the previously visited node. On a fit, performs the
split (when `current->size >= size + sizeof(node_t) + 8`) or takes the
whole block, returning the updated memory, the updated head, and the
payload address. `none` means the walk ended at NULL (no fit) — the caller
then grows the backing store. -/
def findFitAux (s : Nat) :
    Nat → List (Nat × Node) → Option Nat → Option Nat → Option Nat →
    Option (List (Nat × Node) × Option Nat × Nat)
  | 0, _, _, _, _ => none
  | _ + 1, _, _, _, none => none
  | fuel + 1, mem, hd, prevA, some c =>
    match lookupMem mem c with
    | none => none
    | some node =>
      if node.free_flag ∧ s ≤ node.size then
        if s + headerSize + ptrSize ≤ node.size then
          -- split: new header carved at request bytes past the payload start
          let nb := c + headerSize + s
          let mem1 := storeMem mem nb ⟨node.size - s - headerSize, true, node.next⟩
          let mem2 := storeMem mem1 c ⟨s, false, some nb⟩
          -- lines 102-106: head / prev->next are pointed at the NEW block
          match prevA with
          | none => some (mem2, some nb, c + headerSize)
          | some p =>
            match lookupMem mem2 p with
            | none => some (mem2, hd, c + headerSize)
            | some pn =>
              some (storeMem mem2 p ⟨pn.size, pn.free_flag, some nb⟩, hd,
                    c + headerSize)
        else
          some (storeMem mem c ⟨node.size, false, node.next⟩, hd, c + headerSize)
      else
        findFitAux s fuel mem hd (some c) node.next

/-- Lines 84-136 of mymalloc.c: the small-object path. `s` is the already
rounded size. First-fit search; on failure, grow the backing store by whole
pages and LINK THE NEW BLOCK AT THE HEAD of the list (lines 132-133). -/
def smallAlloc (st : AllocState) (mapOk : Bool) (s : Nat) : Option Nat × AllocState :=
  match findFitAux s (st.mem.length + 1) st.mem st.head none st.head with
  | some (mem2, hd2, p) => (some p, ⟨mem2, hd2, st.nextMap⟩)
  | none =>
    let total := s + headerSize
    let alloc := ((total + (PAGE_SIZE - 1)) / PAGE_SIZE) * PAGE_SIZE
    if mapOk then
      let a := st.nextMap
      (some (a + headerSize),
        ⟨storeMem st.mem a ⟨alloc - headerSize, false, st.head⟩, some a, a + alloc⟩)
    else (none, st)

/-- `mymalloc` (mymalloc.c lines 50-137): zero-size guard, size rounding,
large/small classification, then the corresponding path. -/
def mymalloc (st : AllocState) (mapOk : Bool) (size : Nat) : Option Nat × AllocState :=
  if size = 0 then (none, st)
  else if isLargeRequest size then largeAlloc st mapOk (roundedSize size)
  else smallAlloc st mapOk (roundedSize size)

/-- Lines 180-187 of mymalloc.c: the forward-merge test at `current = c`
holding `node`: the next block exists, is free, and is address-adjacent
(`(char*)current + sizeof(node_t) + current->size == (char*)current->next`).
Returns the merged header for `c` when the merge fires. -/
def fwdMerge (mem : List (Nat × Node)) (c : Nat) (node : Node) : Option Node :=
  match node.next with
  | none => none
  | some nx =>
    match lookupMem mem nx with
    | none => none
    | some nxn =>
      if nxn.free_flag ∧ c + headerSize + node.size = nx then
        some ⟨node.size + (headerSize + nxn.size), node.free_flag, nxn.next⟩
      else none

/-- Lines 189-197 of mymalloc.c: the backward-merge test: the previously
visited block exists, is free, and is address-adjacent to `current = c`.
Returns the previous block's address and its merged header. -/
def backMerge (mem : List (Nat × Node)) (prevA : Option Nat) (c : Nat) (node : Node) :
    Option (Nat × Node) :=
  match prevA with
  | none => none
  | some p =>
    match lookupMem mem p with
    | none => none
    | some pn =>
      if pn.free_flag ∧ p + headerSize + pn.size = c then
        some (p, ⟨pn.size + (headerSize + node.size), pn.free_flag, node.next⟩)
      else none

/-- Lines 173-202 of mymalloc.c: the coalescing pass. Walks the list from
`cur`; at a free block, first tries the forward merge (and re-checks the
same block, the `continue`), then the backward merge (after which
`current = prev`, with the C `prev` variable left unchanged), else
advances. -/
def coalesceAux : Nat → List (Nat × Node) → Option Nat → Option Nat → List (Nat × Node)
  | 0, mem, _, _ => mem
  | _ + 1, mem, _, none => mem
  | fuel + 1, mem, prevA, some c =>
    match lookupMem mem c with
    | none => mem
    | some node =>
      if node.free_flag then
        match fwdMerge mem c node with
        | some node2 => coalesceAux fuel (storeMem mem c node2) prevA (some c)
        | none =>
          match backMerge mem prevA c node with
          | some pr => coalesceAux fuel (storeMem mem pr.1 pr.2) prevA (some pr.1)
          | none => coalesceAux fuel mem (some c) node.next
      else
        coalesceAux fuel mem (some c) node.next

/-- `myfree` (mymalloc.c lines 150-205): NULL guard, header recovery at
`ptr - sizeof(node_t)`, double-free check (the returned `Bool` is the
"Double free detected!" diagnostic), `munmap` for blocks with
`size >= PAGE_SIZE`, else mark free and run the coalescing pass. -/
def myfree (st : AllocState) (ptr : Nat) : AllocState × Bool :=
  if ptr = 0 then (st, false)
  else
    match lookupMem st.mem (ptr - headerSize) with
    | none => (st, false)
    | some node =>
      if node.free_flag then (st, true)
      else if PAGE_SIZE ≤ node.size then
        (⟨eraseMem st.mem (ptr - headerSize), st.head, st.nextMap⟩, false)
      else
        (⟨coalesceAux
            (3 * (storeMem st.mem (ptr - headerSize) ⟨node.size, true, node.next⟩).length + 3)
            (storeMem st.mem (ptr - headerSize) ⟨node.size, true, node.next⟩)
            none st.head,
          st.head, st.nextMap⟩, false)

/-- `mycalloc` (mymalloc.c lines 214-220): `total = nmemb * s` in wrapping
`size_t` arithmetic — no overflow check — then `mymalloc(total)`. The
zero-fill touches only payload bytes, which carry no allocator metadata,
so it does not appear in the state model. -/
def mycalloc (st : AllocState) (mapOk : Bool) (nmemb s : Nat) : Option Nat × AllocState :=
  mymalloc st mapOk ((nmemb * s) % W)

/-- Initial allocator state: empty memory, `head = NULL` (line 35), and a
page-aligned base address for the first mapping. -/
def initState : AllocState := ⟨[], none, 65536⟩

/-- The addresses on the free list in list order, chased from `head` with
fuel (sufficient whenever the list is an acyclic chain of present headers). -/
def chaseList (mem : List (Nat × Node)) : Nat → Option Nat → List Nat
  | 0, _ => []
  | _ + 1, none => []
  | fuel + 1, some a =>
    a :: (match lookupMem mem a with
          | none => []
          | some n => chaseList mem fuel n.next)

/-- The list of block addresses reachable from the allocator's head. -/
def listAddrs (st : AllocState) : List Nat :=
  chaseList st.mem (st.mem.length + 1) st.head

/-- Trace: allocate 8 bytes (the whole first page is used), free it, then
allocate 8 bytes again — this second call finds the free page-sized block
and splits it. -/
def splitTrace : Option Nat × AllocState :=
  mymalloc (myfree (mymalloc initState true 8).2 65560).1 true 8

/-- Trace: two 8-byte allocations, each served by growing the backing
store by one page (the first page's block is in use when the second call
searches). -/
def growTrace : AllocState :=
  (mymalloc (mymalloc initState true 8).2 true 8).2

/-- Trace: two page-backed 8-byte allocations, then both released
(lower-address block first). The two blocks are address-adjacent and both
free afterwards. -/
def unmergedTrace : AllocState :=
  (myfree (myfree growTrace 65560).1 69656).1

/-- Trace: a 4080-byte request. It is classified small (4080 < 4096), served
by growing the backing store by two pages, and the resulting block — linked
at the head of the free list — carries `size = 8168 ≥ PAGE_SIZE`. -/
def smallGrowthTrace : AllocState := (mymalloc initState true 4080).2

/-- A one-block state whose block is already free: the double-release input. -/
def doubleFreeSt : AllocState := ⟨[(0, ⟨8, true, none⟩)], some 0, 65536⟩

/-- Every header lies at an 8-byte-aligned address and every stored block
size is a multiple of 8. -/
def MemAligned (m : List (Nat × Node)) : Prop :=
  ∀ p ∈ m, p.1 % 8 = 0 ∧ p.2.size % 8 = 0

/-- The alignment invariant: all headers 8-aligned with 8-multiple sizes,
and the next mapping address page-aligned (as `mmap` guarantees). -/
def alignedInv (st : AllocState) : Prop :=
  MemAligned st.mem ∧ st.nextMap % PAGE_SIZE = 0

/-! ## Basic lemmas about the memory map -/

theorem lookupMem_storeMem_self (m : List (Nat × Node)) (a : Nat) (n : Node) :
    lookupMem (storeMem m a n) a = some n := by
  induction m with
  | nil => simp [storeMem, lookupMem]
  | cons hd tl ih =>
    obtain ⟨b, x⟩ := hd
    by_cases hb : b = a <;> simp [storeMem, lookupMem, hb, ih]

theorem lookupMem_storeMem_ne (m : List (Nat × Node)) (a b : Nat) (n : Node)
    (h : b ≠ a) : lookupMem (storeMem m a n) b = lookupMem m b := by
  have hab : a ≠ b := Ne.symm h
  induction m with
  | nil => simp [storeMem, lookupMem, hab]
  | cons hd tl ih =>
    obtain ⟨c, x⟩ := hd
    by_cases hc : c = a
    · subst hc
      simp [storeMem, lookupMem, hab]
    · simp only [storeMem, if_neg hc, lookupMem]
      by_cases hcb : c = b <;> simp [hcb, ih]

theorem lookupMem_mem {m : List (Nat × Node)} {a : Nat} {n : Node}
    (h : lookupMem m a = some n) : (a, n) ∈ m := by
  induction m with
  | nil => simp [lookupMem] at h
  | cons hd tl ih =>
    obtain ⟨b, x⟩ := hd
    by_cases hb : b = a
    · subst hb
      simp [lookupMem] at h
      simp [h]
    · simp only [lookupMem, if_neg hb] at h
      simp [ih h]

theorem mem_storeMem {m : List (Nat × Node)} {a : Nat} {n : Node} {p : Nat × Node}
    (hp : p ∈ storeMem m a n) : p = (a, n) ∨ p ∈ m := by
  induction m with
  | nil => simpa [storeMem] using hp
  | cons hd tl ih =>
    obtain ⟨b, x⟩ := hd
    by_cases hb : b = a
    · subst hb
      simp only [storeMem, if_pos rfl] at hp
      rcases List.mem_cons.mp hp with h | h
      · exact Or.inl h
      · exact Or.inr (List.mem_cons_of_mem _ h)
    · simp only [storeMem, if_neg hb] at hp
      rcases List.mem_cons.mp hp with h | h
      · exact Or.inr (by simp [h])
      · rcases ih h with h' | h'
        · exact Or.inl h'
        · exact Or.inr (List.mem_cons_of_mem _ h')

theorem mem_eraseMem {m : List (Nat × Node)} {a : Nat} {p : Nat × Node}
    (hp : p ∈ eraseMem m a) : p ∈ m := by
  induction m with
  | nil => simp [eraseMem] at hp
  | cons hd tl ih =>
    obtain ⟨b, x⟩ := hd
    by_cases hb : b = a
    · simp only [eraseMem, if_pos hb] at hp
      exact List.mem_cons_of_mem _ (ih hp)
    · simp only [eraseMem, if_neg hb, List.mem_cons] at hp
      rcases hp with h | h
      · simp [h]
      · exact List.mem_cons_of_mem _ (ih h)

theorem MemAligned_store {m : List (Nat × Node)} {a : Nat} {n : Node}
    (hm : MemAligned m) (ha : a % 8 = 0) (hn : n.size % 8 = 0) :
    MemAligned (storeMem m a n) := by
  intro p hp
  rcases mem_storeMem hp with rfl | hp'
  · exact ⟨ha, hn⟩
  · exact hm p hp'

theorem MemAligned_erase {m : List (Nat × Node)} {a : Nat}
    (hm : MemAligned m) : MemAligned (eraseMem m a) :=
  fun p hp => hm p (mem_eraseMem hp)

theorem roundedSize_mod8 (size : Nat) : roundedSize size % 8 = 0 := by
  unfold roundedSize
  simp [Nat.mul_mod_left]

/-! ## Step lemmas for the coalescing pass -/

theorem coalesceAux_nil_cur (fuel : Nat) (mem : List (Nat × Node)) (prevA : Option Nat) :
    coalesceAux fuel mem prevA none = mem := by
  cases fuel <;> rfl

theorem coalesceAux_step_fwd (fuel : Nat) (mem : List (Nat × Node)) (prevA : Option Nat)
    (c : Nat) (node node2 : Node)
    (hcur : lookupMem mem c = some node) (hfree : node.free_flag = true)
    (hfwd : fwdMerge mem c node = some node2) :
    coalesceAux (fuel + 1) mem prevA (some c)
      = coalesceAux fuel (storeMem mem c node2) prevA (some c) := by
  simp [coalesceAux, hcur, hfree, hfwd]

theorem coalesceAux_step_advance (fuel : Nat) (mem : List (Nat × Node)) (prevA : Option Nat)
    (c : Nat) (node : Node)
    (hcur : lookupMem mem c = some node) (hfree : node.free_flag = true)
    (hfwd : fwdMerge mem c node = none) (hback : backMerge mem prevA c node = none) :
    coalesceAux (fuel + 1) mem prevA (some c)
      = coalesceAux fuel mem (some c) node.next := by
  simp [coalesceAux, hcur, hfree, hfwd, hback]

theorem coalesceAux_step_nolook (fuel : Nat) (mem : List (Nat × Node)) (prevA : Option Nat)
    (c : Nat) (hcur : lookupMem mem c = none) :
    coalesceAux (fuel + 1) mem prevA (some c) = mem := by
  simp [coalesceAux, hcur]

theorem coalesceAux_step_back (fuel : Nat) (mem : List (Nat × Node)) (prevA : Option Nat)
    (c : Nat) (node : Node) (pr : Nat × Node)
    (hcur : lookupMem mem c = some node) (hfree : node.free_flag = true)
    (hfwd : fwdMerge mem c node = none) (hback : backMerge mem prevA c node = some pr) :
    coalesceAux (fuel + 1) mem prevA (some c)
      = coalesceAux fuel (storeMem mem pr.1 pr.2) prevA (some pr.1) := by
  simp [coalesceAux, hcur, hfree, hfwd, hback]

theorem coalesceAux_step_notfree (fuel : Nat) (mem : List (Nat × Node)) (prevA : Option Nat)
    (c : Nat) (node : Node)
    (hcur : lookupMem mem c = some node) (hfree : node.free_flag = false) :
    coalesceAux (fuel + 1) mem prevA (some c) = coalesceAux fuel mem (some c) node.next := by
  simp [coalesceAux, hcur, hfree]

/-! ## Alignment preservation -/

theorem fwdMerge_aligned {mem : List (Nat × Node)} {c : Nat} {node node2 : Node}
    (h : fwdMerge mem c node = some node2) (hm : MemAligned mem)
    (hn : node.size % 8 = 0) : node2.size % 8 = 0 := by
  have h24 : headerSize = 24 := rfl
  unfold fwdMerge at h
  split at h
  · simp at h
  · split at h
    · simp at h
    · rename_i nx nxn hl
      split at h
      · have h' := Option.some.inj h
        subst h'
        have hx : nxn.size % 8 = 0 := (hm _ (lookupMem_mem hl)).2
        show (node.size + (headerSize + nxn.size)) % 8 = 0
        omega
      · simp at h

theorem backMerge_aligned {mem : List (Nat × Node)} {prevA : Option Nat} {c : Nat}
    {node : Node} {pr : Nat × Node}
    (h : backMerge mem prevA c node = some pr) (hm : MemAligned mem)
    (hn : node.size % 8 = 0) : pr.1 % 8 = 0 ∧ pr.2.size % 8 = 0 := by
  have h24 : headerSize = 24 := rfl
  unfold backMerge at h
  split at h
  · simp at h
  · split at h
    · simp at h
    · rename_i p hpeq pn hl
      split at h
      · have h' := Option.some.inj h
        subst h'
        have hp1 : p % 8 = 0 := (hm _ (lookupMem_mem hl)).1
        have hp2 : pn.size % 8 = 0 := (hm _ (lookupMem_mem hl)).2
        refine ⟨hp1, ?_⟩
        show (pn.size + (headerSize + node.size)) % 8 = 0
        omega
      · simp at h

theorem coalesceAux_aligned (fuel : Nat) :
    ∀ (mem : List (Nat × Node)) (prevA cur : Option Nat),
    MemAligned mem → MemAligned (coalesceAux fuel mem prevA cur) := by
  induction fuel with
  | zero =>
    intro mem prevA cur hm
    cases cur <;> exact hm
  | succ f ih =>
    intro mem prevA cur hm
    cases cur with
    | none => rw [coalesceAux_nil_cur]; exact hm
    | some c =>
      cases hcur : lookupMem mem c with
      | none => rw [coalesceAux_step_nolook _ _ _ _ hcur]; exact hm
      | some node =>
        have hnode := hm _ (lookupMem_mem hcur)
        by_cases hfree : node.free_flag = true
        · cases hfwd : fwdMerge mem c node with
          | none =>
            cases hback : backMerge mem prevA c node with
            | none =>
              rw [coalesceAux_step_advance _ _ _ _ _ hcur hfree hfwd hback]
              exact ih _ _ _ hm
            | some pr =>
              rw [coalesceAux_step_back _ _ _ _ _ _ hcur hfree hfwd hback]
              have hpr := backMerge_aligned hback hm hnode.2
              exact ih _ _ _ (MemAligned_store hm hpr.1 hpr.2)
          | some node2 =>
            rw [coalesceAux_step_fwd _ _ _ _ _ _ hcur hfree hfwd]
            exact ih _ _ _ (MemAligned_store hm hnode.1 (fwdMerge_aligned hfwd hm hnode.2))
        · have hff : node.free_flag = false := by
            cases hb : node.free_flag
            · rfl
            · exact absurd hb hfree
          rw [coalesceAux_step_notfree _ _ _ _ _ hcur hff]
          exact ih _ _ _ hm

theorem findFitAux_aligned (s : Nat) (hs : s % 8 = 0) (fuel : Nat) :
    ∀ (mem : List (Nat × Node)) (hd prevA cur : Option Nat)
      (r : List (Nat × Node) × Option Nat × Nat),
    MemAligned mem →
    findFitAux s fuel mem hd prevA cur = some r →
    MemAligned r.1 ∧ r.2.2 % 8 = 0 := by
  have h24 : headerSize = 24 := rfl
  induction fuel with
  | zero =>
    intro mem hd prevA cur r hm h
    simp [findFitAux] at h
  | succ f ih =>
    intro mem hd prevA cur r hm h
    cases cur with
    | none => simp [findFitAux] at h
    | some c =>
      rw [findFitAux] at h
      split at h
      · simp at h
      · rename_i node hcur
        have hc8 : c % 8 = 0 := (hm _ (lookupMem_mem hcur)).1
        have hn8 : node.size % 8 = 0 := (hm _ (lookupMem_mem hcur)).2
        split at h
        · split at h
          · -- split path
            dsimp only at h
            have hm1 : MemAligned
                (storeMem mem (c + headerSize + s)
                  ⟨node.size - s - headerSize, true, node.next⟩) :=
              MemAligned_store hm (by omega)
                (by show (node.size - s - headerSize) % 8 = 0; omega)
            have hm2 : MemAligned
                (storeMem (storeMem mem (c + headerSize + s)
                    ⟨node.size - s - headerSize, true, node.next⟩) c
                  ⟨s, false, some (c + headerSize + s)⟩) :=
              MemAligned_store hm1 hc8 hs
            split at h
            · have h' := Option.some.inj h
              subst h'
              exact ⟨hm2, by show (c + headerSize) % 8 = 0; omega⟩
            · split at h
              · have h' := Option.some.inj h
                subst h'
                exact ⟨hm2, by show (c + headerSize) % 8 = 0; omega⟩
              · rename_i p hpeq pn hpl
                have h' := Option.some.inj h
                subst h'
                have hpn1 : p % 8 = 0 := (hm2 _ (lookupMem_mem hpl)).1
                have hpn2 : pn.size % 8 = 0 := (hm2 _ (lookupMem_mem hpl)).2
                exact ⟨MemAligned_store hm2 hpn1 hpn2,
                       by show (c + headerSize) % 8 = 0; omega⟩
          · -- whole-block path
            have h' := Option.some.inj h
            subst h'
            exact ⟨MemAligned_store hm hc8 hn8,
                   by show (c + headerSize) % 8 = 0; omega⟩
        · exact ih mem hd (some c) node.next r hm h

theorem mod_W_mod_PAGE (x : Nat) : (x * PAGE_SIZE) % W % PAGE_SIZE = 0 := by
  have h1 : PAGE_SIZE ∣ W := ⟨2 ^ 52, by norm_num [PAGE_SIZE, W]⟩
  rw [Nat.mod_mod_of_dvd _ h1]
  exact Nat.mul_mod_left x PAGE_SIZE

theorem largeAlloc_true_eq (st : AllocState) (s : Nat) :
    largeAlloc st true s
      = (some (st.nextMap + headerSize),
         ⟨storeMem st.mem st.nextMap
            ⟨((((s + headerSize) % W + (PAGE_SIZE - 1)) % W / PAGE_SIZE) * PAGE_SIZE) % W
               - headerSize, false, none⟩,
          st.head,
          st.nextMap
            + ((((s + headerSize) % W + (PAGE_SIZE - 1)) % W / PAGE_SIZE) * PAGE_SIZE) % W⟩) :=
  rfl

theorem largeAlloc_false_eq (st : AllocState) (s : Nat) :
    largeAlloc st false s = (none, st) := rfl

theorem smallAlloc_eq_fit (st : AllocState) (mapOk : Bool) (s : Nat)
    (r : List (Nat × Node) × Option Nat × Nat)
    (hf : findFitAux s (st.mem.length + 1) st.mem st.head none st.head = some r) :
    smallAlloc st mapOk s = (some r.2.2, ⟨r.1, r.2.1, st.nextMap⟩) := by
  unfold smallAlloc
  split
  · rename_i mem2 hd2 p hf2
    rw [hf] at hf2
    have h' := Option.some.inj hf2
    subst h'
    rfl
  · rename_i hf2
    rw [hf] at hf2
    exact absurd hf2 (by simp)

theorem smallAlloc_grow_true_eq (st : AllocState) (s : Nat)
    (hf : findFitAux s (st.mem.length + 1) st.mem st.head none st.head = none) :
    smallAlloc st true s
      = (some (st.nextMap + headerSize),
         ⟨storeMem st.mem st.nextMap
            ⟨((s + headerSize + (PAGE_SIZE - 1)) / PAGE_SIZE) * PAGE_SIZE - headerSize,
             false, st.head⟩,
          some st.nextMap,
          st.nextMap + ((s + headerSize + (PAGE_SIZE - 1)) / PAGE_SIZE) * PAGE_SIZE⟩) := by
  unfold smallAlloc
  split
  · rename_i mem2 hd2 p hf2
    rw [hf] at hf2
    exact absurd hf2 (by simp)
  · rfl

theorem smallAlloc_grow_false_eq (st : AllocState) (s : Nat)
    (hf : findFitAux s (st.mem.length + 1) st.mem st.head none st.head = none) :
    smallAlloc st false s = (none, st) := by
  unfold smallAlloc
  split
  · rename_i mem2 hd2 p hf2
    rw [hf] at hf2
    exact absurd hf2 (by simp)
  · rfl

theorem largeAlloc_aligned (st : AllocState) (h : alignedInv st) (mapOk : Bool) (s : Nat) :
    alignedInv (largeAlloc st mapOk s).2
    ∧ ∀ p, (largeAlloc st mapOk s).1 = some p → p % 8 = 0 := by
  have h24 : headerSize = 24 := rfl
  have h4096 : PAGE_SIZE = 4096 := rfl
  have hnm := h.2
  rw [h4096] at hnm
  cases mapOk with
  | false =>
    rw [largeAlloc_false_eq]
    exact ⟨h, by simp⟩
  | true =>
    rw [largeAlloc_true_eq]
    set A := ((((s + headerSize) % W + (PAGE_SIZE - 1)) % W / PAGE_SIZE) * PAGE_SIZE) % W
      with hA
    have halloc : A % 4096 = 0 := by
      rw [hA, ← h4096]
      exact mod_W_mod_PAGE _
    refine ⟨⟨MemAligned_store h.1 ?_ ?_, ?_⟩, ?_⟩
    · omega
    · show (A - headerSize) % 8 = 0
      rw [h24]
      omega
    · show (st.nextMap + A) % PAGE_SIZE = 0
      rw [h4096]
      omega
    · intro p hp
      have hp' := Option.some.inj hp
      rw [h24] at hp'
      omega

theorem smallAlloc_aligned (st : AllocState) (h : alignedInv st) (mapOk : Bool) (s : Nat)
    (hs : s % 8 = 0) :
    alignedInv (smallAlloc st mapOk s).2
    ∧ ∀ p, (smallAlloc st mapOk s).1 = some p → p % 8 = 0 := by
  have h24 : headerSize = 24 := rfl
  have h4096 : PAGE_SIZE = 4096 := rfl
  have hnm := h.2
  rw [h4096] at hnm
  cases hf : findFitAux s (st.mem.length + 1) st.mem st.head none st.head with
  | some r =>
    have hr := findFitAux_aligned s hs _ _ _ _ _ _ h.1 hf
    rw [smallAlloc_eq_fit st mapOk s r hf]
    refine ⟨⟨hr.1, h.2⟩, ?_⟩
    intro p hp
    have hp' := Option.some.inj hp
    subst hp'
    exact hr.2
  | none =>
    cases mapOk with
    | false =>
      rw [smallAlloc_grow_false_eq st s hf]
      exact ⟨h, by simp⟩
    | true =>
      rw [smallAlloc_grow_true_eq st s hf]
      set A := ((s + headerSize + (PAGE_SIZE - 1)) / PAGE_SIZE) * PAGE_SIZE with hA
      have halloc : A % 4096 = 0 := by
        rw [hA, ← h4096]
        exact Nat.mul_mod_left _ _
      refine ⟨⟨MemAligned_store h.1 ?_ ?_, ?_⟩, ?_⟩
      · omega
      · show (A - headerSize) % 8 = 0
        rw [h24]
        omega
      · show (st.nextMap + A) % PAGE_SIZE = 0
        rw [h4096]
        omega
      · intro p hp
        have hp' := Option.some.inj hp
        rw [h24] at hp'
        omega

theorem mymalloc_aligned (st : AllocState) (h : alignedInv st) (mapOk : Bool) (size : Nat) :
    alignedInv (mymalloc st mapOk size).2
    ∧ ∀ p, (mymalloc st mapOk size).1 = some p → p % 8 = 0 := by
  unfold mymalloc
  by_cases h0 : size = 0
  · rw [if_pos h0]
    exact ⟨h, by simp⟩
  · rw [if_neg h0]
    by_cases hl : isLargeRequest size = true
    · rw [if_pos hl]
      exact largeAlloc_aligned st h mapOk _
    · rw [if_neg hl]
      exact smallAlloc_aligned st h mapOk _ (roundedSize_mod8 size)

theorem myfree_aligned (st : AllocState) (h : alignedInv st) (ptr : Nat) :
    alignedInv (myfree st ptr).1 := by
  unfold myfree
  split
  · exact h
  · split
    · exact h
    · rename_i node hl
      split
      · exact h
      · split
        · exact ⟨MemAligned_erase h.1, h.2⟩
        · refine ⟨coalesceAux_aligned _ _ _ _ (MemAligned_store h.1 ?_ ?_), h.2⟩
          · exact (h.1 _ (lookupMem_mem hl)).1
          · exact (h.1 _ (lookupMem_mem hl)).2

/-! ## Claim theorems -/

/-- C1: the claim says an overflowing `count * elem_size` makes
`mycalloc` return null with no allocation. The code computes the product
in wrapping `size_t` arithmetic with no overflow check: with
`count = 2^62 + 1` and `elem_size = 4` the product overflows (it is
`2^64 + 4`), wraps to `4`, and `mycalloc` allocates a block and returns a
non-null pointer, mutating the allocator state. -/
theorem mycalloc_overflow_still_allocates :
    W < (2 ^ 62 + 1) * 4
    ∧ (mycalloc initState true (2 ^ 62 + 1) 4).1 = some 65560
    ∧ (mycalloc initState true (2 ^ 62 + 1) 4).2 ≠ initState := by
  refine ⟨by decide, by decide, by decide⟩

/-- C2: the claim says that after a split the matched block stays
reachable in the list, with the remainder inserted immediately after it.
In the code (mymalloc.c lines 102-106) `head`/`prev->next` are pointed at
the NEW remainder block, so the matched block is unlinked from the list:
in the trace below the split leaves `head` at the remainder (65568) whose
`next` is NULL, and the matched block (65536) — returned to the caller —
is no longer on the list. -/
theorem split_unlinks_matched_block :
    splitTrace.1 = some 65560
    ∧ lookupMem splitTrace.2.mem 65536 = some ⟨8, false, some 65568⟩
    ∧ lookupMem splitTrace.2.mem 65568 = some ⟨4040, true, none⟩
    ∧ splitTrace.2.head = some 65568
    ∧ 65536 ∉ listAddrs splitTrace.2 := by
  refine ⟨by decide, by decide, by decide, by decide, by decide⟩

/-- C3 counterexample: the claim says backing-store growth appends the new
block at the tail and the list stays in strictly increasing address order.
In the code (mymalloc.c lines 132-133) growth PREPENDS the new block at
`head`: after two page growths (mappings at 65536 then 69632) the list is
`[69632, 65536]` — the newer, higher-address block first — which is not in
increasing address order, and the new block was not appended at the tail. -/
theorem growth_prepend_counterexample :
    growTrace.head = some 69632
    ∧ lookupMem growTrace.mem 69632 = some ⟨4072, false, some 65536⟩
    ∧ listAddrs growTrace = [69632, 65536]
    ∧ ¬ 69632 < 65536 := by
  refine ⟨by decide, by decide, by decide, by decide⟩

/-- C3 amended: when the small path finds no fit and the mapping succeeds,
the newly formatted block (`free_flag = false`, `size` = the page-rounded
allocation minus the header) is PREPENDED at the head of the free list,
its `next` being the old head; address order is not maintained. -/
theorem growth_prepends_to_head (st : AllocState) (size : Nat)
    (h0 : size ≠ 0)
    (hsmall : isLargeRequest size = false)
    (hnofit : findFitAux (roundedSize size) (st.mem.length + 1) st.mem st.head none
        st.head = none) :
    (mymalloc st true size).2.head = some st.nextMap
    ∧ lookupMem (mymalloc st true size).2.mem st.nextMap
        = some ⟨((roundedSize size + headerSize + (PAGE_SIZE - 1)) / PAGE_SIZE) * PAGE_SIZE
                  - headerSize, false, st.head⟩
    ∧ (mymalloc st true size).1 = some (st.nextMap + headerSize) := by
  simp [mymalloc, h0, hsmall, smallAlloc, hnofit, lookupMem_storeMem_self]

theorem growth_prepends_to_head_witness :
    ((8 : Nat) ≠ 0
      ∧ isLargeRequest 8 = false
      ∧ findFitAux (roundedSize 8) (initState.mem.length + 1) initState.mem initState.head
          none initState.head = none)
    ∧ ((mymalloc initState true 8).2.head = some initState.nextMap
      ∧ lookupMem (mymalloc initState true 8).2.mem initState.nextMap
          = some ⟨((roundedSize 8 + headerSize + (PAGE_SIZE - 1)) / PAGE_SIZE) * PAGE_SIZE
                    - headerSize, false, initState.head⟩
      ∧ (mymalloc initState true 8).1 = some (initState.nextMap + headerSize)) :=
  ⟨⟨by decide, by decide, by decide⟩,
   growth_prepends_to_head initState 8 (by decide) (by decide) (by decide)⟩

/-- C4 counterexample: the claim says that after any release no two
address-adjacent free blocks remain unmerged. After two page-backed
allocations (blocks at 65536 and 69632, which are address-adjacent:
`65536 + 24 + 4072 = 69632`) are both released, both blocks are free but
remain distinct: the growth path prepends, so the list runs in DECREASING
address order (`[69632, 65536]`), and the coalescer's adjacency checks —
which only compare a block with its list successor and predecessor in
list order — never fire. -/
theorem adjacent_free_blocks_unmerged :
    lookupMem unmergedTrace.mem 65536 = some ⟨4072, true, none⟩
    ∧ lookupMem unmergedTrace.mem 69632 = some ⟨4072, true, some 65536⟩
    ∧ 65536 + headerSize + 4072 = 69632
    ∧ listAddrs unmergedTrace = [69632, 65536] := by
  refine ⟨by decide, by decide, by decide, by decide⟩

/-- C5 counterexample: the claim says a request is classified large exactly
when the rounded size PLUS THE HEADER meets or exceeds the page size. The
code's test (mymalloc.c line 61) is `size >= PAGE_SIZE` on the rounded size
alone: for a 4072-byte request, `4072 + 24 ≥ 4096` so the claim calls it
large, but the code classifies it small. -/
theorem large_classification_counterexample :
    ¬ ((isLargeRequest 4072 = true) ↔ PAGE_SIZE ≤ roundedSize 4072 + headerSize) := by
  decide

/-- C5 amended: `mymalloc` classifies a (non-zero) request as large exactly
when the rounded size alone meets or exceeds the page size, taking the
large-object path in that case (which never touches the free-list head)
and the small path otherwise. -/
theorem mymalloc_classifies_by_rounded_size (st : AllocState) (mapOk : Bool) (size : Nat)
    (h : size ≠ 0) :
    (mymalloc st mapOk size
        = if PAGE_SIZE ≤ roundedSize size then largeAlloc st mapOk (roundedSize size)
          else smallAlloc st mapOk (roundedSize size))
    ∧ (PAGE_SIZE ≤ roundedSize size → (mymalloc st mapOk size).2.head = st.head) := by
  constructor
  · simp [mymalloc, isLargeRequest, h]
  · intro hl
    cases mapOk <;> simp [mymalloc, isLargeRequest, h, hl, largeAlloc]

theorem mymalloc_classifies_by_rounded_size_witness :
    ((4500 : Nat) ≠ 0)
    ∧ ((mymalloc initState true 4500
          = if PAGE_SIZE ≤ roundedSize 4500 then largeAlloc initState true (roundedSize 4500)
            else smallAlloc initState true (roundedSize 4500))
      ∧ (PAGE_SIZE ≤ roundedSize 4500 → (mymalloc initState true 4500).2.head
          = initState.head)) :=
  ⟨by decide, mymalloc_classifies_by_rounded_size initState true 4500 (by decide)⟩

/-- C6: the claim says release unmaps a block immediately (with no
free-flag transition) if and only if it came from the large-object path.
`myfree` branches on the stored size (`size >= PAGE_SIZE`, mymalloc.c line
164), not on provenance: a 4080-byte request is classified SMALL
(`isLargeRequest 4080 = false`), served by the small growth path, and its
block — linked at the head of the free list — has `size = 8168 ≥ 4096`, so
releasing it takes the munmap branch: its header disappears with no
free-flag transition while `head` still points at the unmapped address. -/
theorem small_block_unmapped_on_free :
    isLargeRequest 4080 = false
    ∧ (mymalloc initState true 4080).1 = some 65560
    ∧ smallGrowthTrace.head = some 65536
    ∧ lookupMem smallGrowthTrace.mem 65536 = some ⟨8168, false, none⟩
    ∧ (myfree smallGrowthTrace 65560).1.mem = []
    ∧ (myfree smallGrowthTrace 65560).1.head = some 65536 := by
  refine ⟨by decide, by decide, by decide, by decide, by decide, by decide⟩

/-- C7: releasing a pointer whose recovered header is already free reports
the double-release (the `Bool` diagnostic, mymalloc.c line 158) and
returns the state completely unchanged. -/
theorem myfree_double_free_noop (st : AllocState) (ptr : Nat) (node : Node)
    (hptr : ptr ≠ 0)
    (hnode : lookupMem st.mem (ptr - headerSize) = some node)
    (hfree : node.free_flag = true) :
    myfree st ptr = (st, true) := by
  simp [myfree, hptr, hnode, hfree]

theorem myfree_double_free_noop_witness :
    ((24 : Nat) ≠ 0
      ∧ lookupMem doubleFreeSt.mem (24 - headerSize) = some ⟨8, true, none⟩
      ∧ (⟨8, true, none⟩ : Node).free_flag = true)
    ∧ myfree doubleFreeSt 24 = (doubleFreeSt, true) :=
  ⟨⟨by decide, by decide, by decide⟩,
   myfree_double_free_noop doubleFreeSt 24 ⟨8, true, none⟩ (by decide) (by decide) (by decide)⟩

/-- C8: on any request whose execution reaches the backing-store mapping
call (the large path always maps; the small path maps when the first-fit
search finds nothing), a mapping failure makes `mymalloc` return null with
the state — free-list memory, head, and bump pointer — exactly unchanged. -/
theorem mymalloc_map_failure_unchanged (st : AllocState) (size : Nat)
    (h : isLargeRequest size = true
      ∨ findFitAux (roundedSize size) (st.mem.length + 1) st.mem st.head none
          st.head = none) :
    mymalloc st false size = (none, st) := by
  by_cases h0 : size = 0
  · simp [mymalloc, h0]
  · rcases h with h | h
    · simp [mymalloc, h0, h, largeAlloc]
    · by_cases hl : isLargeRequest size
      · simp [mymalloc, h0, hl, largeAlloc]
      · simp [mymalloc, h0, hl, smallAlloc, h]

theorem mymalloc_map_failure_unchanged_witness :
    (isLargeRequest 8 = true
      ∨ findFitAux (roundedSize 8) (initState.mem.length + 1) initState.mem initState.head
          none initState.head = none)
    ∧ mymalloc initState false 8 = (none, initState) :=
  ⟨Or.inr (by decide), mymalloc_map_failure_unchanged initState 8 (Or.inr (by decide))⟩

/-- C9: `mycalloc` with a zero count or zero element size computes a total
of 0, which `mymalloc`'s zero-size guard rejects: the result is null and
the state is returned unchanged. -/
theorem mycalloc_zero_args_null (st : AllocState) (mapOk : Bool) (nmemb s : Nat)
    (h : nmemb = 0 ∨ s = 0) :
    mycalloc st mapOk nmemb s = (none, st) := by
  rcases h with h | h <;> subst h <;> simp [mycalloc, mymalloc]

theorem mycalloc_zero_args_null_witness :
    ((0 : Nat) = 0 ∨ (5 : Nat) = 0)
    ∧ mycalloc initState true 0 5 = (none, initState) :=
  ⟨Or.inl rfl, mycalloc_zero_args_null initState true 0 5 (Or.inl rfl)⟩

/-- C4 amended: the coalescing pass does fully merge free blocks that are
address-adjacent AND consecutive in list order: three free blocks chained
`a → b → c` in list order with `b` and `c` address-adjacent to their
predecessors collapse into a single free block of size
`sa + sb + sc + 2 * headerSize` (the forward merge fires twice, absorbing
both neighbors and their headers). Address-adjacent free blocks that are
not consecutive in list order stay unmerged. -/
theorem coalesce_merges_list_adjacent_chain
    (mem : List (Nat × Node)) (a b c sa sb sc fuel : Nat)
    (hab : b = a + headerSize + sa) (hbc : c = b + headerSize + sb)
    (ha : lookupMem mem a = some ⟨sa, true, some b⟩)
    (hb : lookupMem mem b = some ⟨sb, true, some c⟩)
    (hc : lookupMem mem c = some ⟨sc, true, none⟩)
    (hfuel : 4 ≤ fuel) :
    lookupMem (coalesceAux fuel mem none (some a)) a
      = some ⟨sa + sb + sc + 2 * headerSize, true, none⟩ := by
  have h24 : headerSize = 24 := rfl
  subst hbc
  subst hab
  obtain ⟨f, rfl⟩ : ∃ f, fuel = f + 4 := ⟨fuel - 4, by omega⟩
  have hca : a + headerSize + sa + headerSize + sb ≠ a := by omega
  -- first forward merge: a absorbs the block at a + headerSize + sa
  have hf1 : fwdMerge mem a ⟨sa, true, some (a + headerSize + sa)⟩
      = some ⟨sa + (headerSize + sb), true,
              some (a + headerSize + sa + headerSize + sb)⟩ := by
    simp [fwdMerge, hb]
  rw [coalesceAux_step_fwd _ _ _ _ _ _ ha rfl hf1]
  have ha1 : lookupMem
      (storeMem mem a ⟨sa + (headerSize + sb), true,
        some (a + headerSize + sa + headerSize + sb)⟩) a
      = some ⟨sa + (headerSize + sb), true,
              some (a + headerSize + sa + headerSize + sb)⟩ :=
    lookupMem_storeMem_self _ _ _
  have hc1 : lookupMem
      (storeMem mem a ⟨sa + (headerSize + sb), true,
        some (a + headerSize + sa + headerSize + sb)⟩)
      (a + headerSize + sa + headerSize + sb) = some ⟨sc, true, none⟩ := by
    rw [lookupMem_storeMem_ne _ _ _ _ hca]
    exact hc
  -- second forward merge: a absorbs the block at a + 2*headerSize + sa + sb
  have hf2 : fwdMerge
      (storeMem mem a ⟨sa + (headerSize + sb), true,
        some (a + headerSize + sa + headerSize + sb)⟩) a
      ⟨sa + (headerSize + sb), true, some (a + headerSize + sa + headerSize + sb)⟩
      = some ⟨sa + (headerSize + sb) + (headerSize + sc), true, none⟩ := by
    simp only [fwdMerge, hc1]
    rw [if_pos]
    exact ⟨by trivial, by omega⟩
  rw [coalesceAux_step_fwd _ _ _ _ _ _ ha1 rfl hf2]
  have ha2 : lookupMem
      (storeMem (storeMem mem a ⟨sa + (headerSize + sb), true,
          some (a + headerSize + sa + headerSize + sb)⟩) a
        ⟨sa + (headerSize + sb) + (headerSize + sc), true, none⟩) a
      = some ⟨sa + (headerSize + sb) + (headerSize + sc), true, none⟩ :=
    lookupMem_storeMem_self _ _ _
  -- no further merge: next is NULL and there is no previous block
  rw [coalesceAux_step_advance (f + 1) _ none a _ ha2 rfl rfl rfl]
  rw [coalesceAux_nil_cur, ha2]
  have hsz : sa + (headerSize + sb) + (headerSize + sc)
      = sa + sb + sc + 2 * headerSize := by omega
  rw [hsz]

theorem coalesce_merges_list_adjacent_chain_witness :
    ((32 : Nat) = 0 + headerSize + 8
      ∧ (64 : Nat) = 32 + headerSize + 8
      ∧ lookupMem [(0, ⟨8, true, some 32⟩), (32, ⟨8, true, some 64⟩),
          (64, ⟨8, true, none⟩)] 0 = some ⟨8, true, some 32⟩
      ∧ lookupMem [(0, ⟨8, true, some 32⟩), (32, ⟨8, true, some 64⟩),
          (64, ⟨8, true, none⟩)] 32 = some ⟨8, true, some 64⟩
      ∧ lookupMem [(0, ⟨8, true, some 32⟩), (32, ⟨8, true, some 64⟩),
          (64, ⟨8, true, none⟩)] 64 = some ⟨8, true, none⟩
      ∧ (4 : Nat) ≤ 4)
    ∧ lookupMem (coalesceAux 4 [(0, ⟨8, true, some 32⟩), (32, ⟨8, true, some 64⟩),
        (64, ⟨8, true, none⟩)] none (some 0)) 0
      = some ⟨8 + 8 + 8 + 2 * headerSize, true, none⟩ :=
  ⟨⟨by decide, by decide, by decide, by decide, by decide, by decide⟩,
   coalesce_merges_list_adjacent_chain
     [(0, ⟨8, true, some 32⟩), (32, ⟨8, true, some 64⟩), (64, ⟨8, true, none⟩)]
     0 32 64 8 8 8 4 (by decide) (by decide) (by decide) (by decide) (by decide)
     (by decide)⟩

/-- C10: in any state satisfying the alignment invariant (all headers at
8-byte-aligned addresses — page-aligned mapping starts or 8-multiple split
offsets — and every stored block size a multiple of 8, with the next
mapping page-aligned), every non-null pointer returned by `mymalloc` or
`mycalloc` is 8-byte aligned (payload = header address + the 24-byte
header), and the invariant is preserved by `mymalloc`, `mycalloc` and
`myfree`, so it holds in every state reachable from `initState`. -/
theorem alloc_pointers_aligned (st : AllocState) (h : alignedInv st) (mapOk : Bool)
    (size nmemb esz fp : Nat) :
    (∀ p, (mymalloc st mapOk size).1 = some p → p % 8 = 0)
    ∧ (∀ p, (mycalloc st mapOk nmemb esz).1 = some p → p % 8 = 0)
    ∧ alignedInv (mymalloc st mapOk size).2
    ∧ alignedInv (mycalloc st mapOk nmemb esz).2
    ∧ alignedInv (myfree st fp).1 :=
  ⟨(mymalloc_aligned st h mapOk size).2,
   (mymalloc_aligned st h mapOk ((nmemb * esz) % W)).2,
   (mymalloc_aligned st h mapOk size).1,
   (mymalloc_aligned st h mapOk ((nmemb * esz) % W)).1,
   myfree_aligned st h fp⟩

theorem alloc_pointers_aligned_witness :
    alignedInv initState
    ∧ ((∀ p, (mymalloc initState true 8).1 = some p → p % 8 = 0)
      ∧ (∀ p, (mycalloc initState true 2 4).1 = some p → p % 8 = 0)
      ∧ alignedInv (mymalloc initState true 8).2
      ∧ alignedInv (mycalloc initState true 2 4).2
      ∧ alignedInv (myfree initState 65560).1) := by
  have hinit : alignedInv initState := by
    constructor
    · intro p hp
      simp [initState] at hp
    · decide
  exact ⟨hinit, alloc_pointers_aligned initState hinit true 8 2 4 65560⟩

end MyMalloc
